import Mathlib

/-!
Shallow embedding of the mano-rs core (the Mano Basic Computer simulator):
the diagnostics channel (`message.rs`), the masked registers (`registers.rs`),
the micro-step CPU (`cpu.rs`), the two-pass assembler (`assembler.rs`), the
storage (`storage.rs`) and the machine facade (`machine.rs`).  Source lines
are modelled as `List Char`; machine words as `Nat` reduced modulo powers of
two exactly where the Rust `u16`/`u32` arithmetic truncates.
-/

namespace Mano

/-! ## Character and string utilities mirroring the Rust `str` operations -/

/-- Whitespace test used by Rust's `str::trim` / `split_whitespace`
(ASCII subset; the programs in scope contain only these). -/
def isWS (c : Char) : Bool :=
  c == ' ' || c == '\t' || c == '\n' || c == '\r'

/-- Rust `str::trim`: drop whitespace from both ends. -/
def trimChars (l : List Char) : List Char :=
  ((l.dropWhile isWS).reverse.dropWhile isWS).reverse

/-- Helper for Rust `str::split_whitespace`, accumulating the current token. -/
def splitWSAux : List Char → List Char → List (List Char)
  | [], acc => if acc.isEmpty then [] else [acc.reverse]
  | c :: rest, acc =>
    if isWS c then
      if acc.isEmpty then splitWSAux rest [] else acc.reverse :: splitWSAux rest []
    else splitWSAux rest (c :: acc)

/-- Rust `str::split_whitespace` as a list of tokens. -/
def splitWS (l : List Char) : List (List Char) :=
  splitWSAux l []

/-- Does `l` start with `p` (character-wise)? -/
def seqStartsWith : List Char → List Char → Bool
  | _, [] => true
  | [], _ :: _ => false
  | c :: rest, p :: ps => c == p && seqStartsWith rest ps

/-- Rust `str::contains(pat)`: substring containment. -/
def containsSubstr (pat : List Char) : List Char → Bool
  | [] => pat.isEmpty
  | c :: rest => seqStartsWith (c :: rest) pat || containsSubstr pat rest

/-- Decimal digit test. -/
def isDigitCh (c : Char) : Bool :=
  '0' ≤ c && c ≤ '9'

/-- Value of a decimal digit. -/
def digitVal (c : Char) : Nat :=
  c.toNat - 48

/-- Value of a hexadecimal digit as accepted by Rust `from_str_radix(_, 16)`
(both letter cases). -/
def hexDigitVal (c : Char) : Option Nat :=
  if '0' ≤ c && c ≤ '9' then some (c.toNat - 48)
  else if 'a' ≤ c && c ≤ 'f' then some (c.toNat - 97 + 10)
  else if 'A' ≤ c && c ≤ 'F' then some (c.toNat - 65 + 10)
  else none

/-- Read a nonempty all-decimal-digit string as a number; `none` otherwise. -/
def readDecDigits (l : List Char) : Option Nat :=
  if l.isEmpty then none
  else
    l.foldl
      (fun acc c =>
        match acc with
        | none => none
        | some n => if isDigitCh c then some (n * 10 + digitVal c) else none)
      (some 0)

/-- Rust `str::parse::<u32>()`: optional leading `+`, decimal digits,
within the `u32` range. -/
def parseU32 (l : List Char) : Option Nat :=
  let l := match l with
    | '+' :: rest => rest
    | _ => l
  match readDecDigits l with
  | some n => if n ≤ 4294967295 then some n else none
  | none => none

/-- Rust `str::parse::<i32>()`: optional sign, decimal digits, `i32` range. -/
def parseI32 (l : List Char) : Option Int :=
  match l with
  | '+' :: rest =>
    (readDecDigits rest).bind fun n => if n ≤ 2147483647 then some (n : Int) else none
  | '-' :: rest =>
    (readDecDigits rest).bind fun n => if n ≤ 2147483648 then some (-(n : Int)) else none
  | _ =>
    (readDecDigits l).bind fun n => if n ≤ 2147483647 then some (n : Int) else none

/-- Rust `str::parse::<i16>()`: optional sign, decimal digits, `i16` range. -/
def parseI16 (l : List Char) : Option Int :=
  match l with
  | '+' :: rest =>
    (readDecDigits rest).bind fun n => if n ≤ 32767 then some (n : Int) else none
  | '-' :: rest =>
    (readDecDigits rest).bind fun n => if n ≤ 32768 then some (-(n : Int)) else none
  | _ =>
    (readDecDigits l).bind fun n => if n ≤ 32767 then some (n : Int) else none

/-- Accumulate hexadecimal digits; `none` on any non-hex character. -/
def readHexDigits (l : List Char) : Option Nat :=
  l.foldl
    (fun acc c => acc.bind fun n => (hexDigitVal c).map fun d => n * 16 + d)
    (some 0)

/-- Rust `u16::from_str_radix(l, 16)`: optional leading `+`, hex digits,
`u16` range (overflow is an error). -/
def from_str_radix_u16 (l : List Char) : Option Nat :=
  let l := match l with
    | '+' :: rest => rest
    | _ => l
  if l.isEmpty then none
  else (readHexDigits l).bind fun n => if n ≤ 65535 then some n else none

/-- Rust `u32::from_str_radix(l, 16)`: as above with the `u32` range. -/
def from_str_radix_u32 (l : List Char) : Option Nat :=
  let l := match l with
    | '+' :: rest => rest
    | _ => l
  if l.isEmpty then none
  else (readHexDigits l).bind fun n => if n ≤ 4294967295 then some n else none

/-- Uppercase hexadecimal digit character for a value in `0..15`. -/
def hexDigitChar (n : Nat) : Char :=
  if n < 10 then Char.ofNat (48 + n) else Char.ofNat (55 + n)

/-- Rust format `{:04X}` for a `u16` value (values here are `< 2^16`,
so exactly four digits are produced). -/
def toHexPad4 (v : Nat) : List Char :=
  [hexDigitChar (v / 4096 % 16), hexDigitChar (v / 256 % 16),
   hexDigitChar (v / 16 % 16), hexDigitChar (v % 16)]

/-- Fuel-driven digit emitter for the minimal hex form (fuel 16 covers
every value `< 16^16`, far beyond the 16-bit words in play). -/
def toHexMinimalAux : Nat → Nat → List Char
  | 0, _ => []
  | fuel + 1, v =>
    if v == 0 then [] else toHexMinimalAux fuel (v / 16) ++ [hexDigitChar (v % 16)]

/-- Rust format `{:X}`: minimal-width uppercase hexadecimal. -/
def toHexMinimal (v : Nat) : List Char :=
  if v == 0 then ['0'] else toHexMinimalAux 16 v

/-- Fuel-driven decimal digit emitter (fuel 20 covers any value `< 10^20`). -/
def natToDecAux : Nat → Nat → List Char
  | 0, _ => []
  | fuel + 1, v =>
    if v == 0 then [] else natToDecAux fuel (v / 10) ++ [Char.ofNat (48 + v % 10)]

/-- Rust `{}` display of an unsigned integer. -/
def natToDec (v : Nat) : String :=
  if v == 0 then "0" else String.mk (natToDecAux 20 v)

/-! ## message.rs: the diagnostics channel -/

/-- Severity level of one diagnostics entry (`message.rs::Level`). -/
inductive Level
  | Info
  | Error
  | Debug
deriving DecidableEq, BEq, Repr

/-- Ordered append-only diagnostics log (`message.rs::Messages`; the unused
`status` field is omitted, no core code reads or writes it). -/
structure Messages where
  entries : List (Level × String)
deriving DecidableEq, Repr

namespace Messages

/-- `Messages::new` -/
def new : Messages := ⟨[]⟩

/-- `Messages::info` -/
def info (m : Messages) (msg : String) : Messages :=
  ⟨m.entries ++ [(Level.Info, msg)]⟩

/-- `Messages::error` -/
def error (m : Messages) (msg : String) : Messages :=
  ⟨m.entries ++ [(Level.Error, msg)]⟩

/-- `Messages::debug` -/
def debug (m : Messages) (msg : String) : Messages :=
  ⟨m.entries ++ [(Level.Debug, msg)]⟩

/-- `Messages::has_errors` -/
def has_errors (m : Messages) : Bool :=
  m.entries.any fun e => e.1 == Level.Error

/-- `Messages::error_count` -/
def error_count (m : Messages) : Nat :=
  (m.entries.filter fun e => e.1 == Level.Error).length

/-- `Messages::combine` -/
def combine (m other : Messages) : Messages :=
  ⟨m.entries ++ other.entries⟩

end Messages

/-! ## registers.rs: masked fixed-width registers -/

/-- A register: current value plus the width mask (`registers.rs::Register`). -/
structure Register where
  value : Nat
  mask : Nat
deriving DecidableEq, Repr

namespace Register

/-- `Register::new(bits)`: zero value, mask `(1 << bits) - 1` capped at 16 bits. -/
def new (bits : Nat) : Register :=
  ⟨0, if bits ≥ 16 then 65535 else 2 ^ bits - 1⟩

/-- `Register::get` -/
def get (r : Register) : Nat := r.value

/-- `Register::set`: stores `value & mask`. -/
def set (r : Register) (v : Nat) : Register :=
  { r with value := v &&& r.mask }

/-- `Register::clear` -/
def clear (r : Register) : Register :=
  { r with value := 0 }

/-- `Register::increment` -/
def increment (r : Register) : Register :=
  r.set (r.value + 1)

/-- `Register::logic_and` -/
def logic_and (r : Register) (v : Nat) : Register :=
  r.set (r.value &&& v)

/-- `Register::add`: wide sum, stored truncated to 16 bits then masked;
returns the carry bit (1 when the sum exceeds the mask). -/
def add (r : Register) (v : Nat) : Register × Nat :=
  let sum := r.value + v
  let carry := if sum > r.mask then 1 else 0
  (r.set (sum % 65536), carry)

/-- `Register::complement`: bitwise not within 16 bits, then masked. -/
def complement (r : Register) : Register :=
  r.set (r.value ^^^ 65535)

/-- `Register::shift_right(msb)`: capture the low bit, shift right, and if
`msb ≠ 0` set the register's top bit. Returns the captured low bit. -/
def shift_right (r : Register) (msb : Nat) : Register × Nat :=
  let lsb := r.value &&& 1
  let r1 := r.set (r.value >>> 1)
  let r2 :=
    if msb ≠ 0 then
      let msb_mask := if r1.mask == 65535 then 32768 else (r1.mask + 1) / 2
      r1.set (r1.value ||| msb_mask)
    else r1
  (r2, lsb)

/-- `Register::shift_left(lsb)`: capture the top bit, shift left (Rust `u16`
shl truncates to 16 bits), write the low bit from `lsb & 1`. -/
def shift_left (r : Register) (lsb : Nat) : Register × Nat :=
  let msb_mask := if r.mask == 65535 then 32768 else (r.mask + 1) / 2
  let msb := if r.value &&& msb_mask ≠ 0 then 1 else 0
  (r.set ((r.value <<< 1) % 65536 ||| (lsb &&& 1)), msb)

end Register

/-- The register file (`registers.rs::Registers`). -/
structure Registers where
  ar : Register
  pc : Register
  dr : Register
  ac : Register
  ir : Register
  tr : Register
  inpr : Register
  outr : Register
  sc : Register
  e : Register
  s : Register
  r : Register
  ien : Register
  fgi : Register
  fgo : Register
deriving DecidableEq, Repr

/-- `Registers::new` with the widths of the Mano machine. -/
def Registers.new : Registers where
  ar := Register.new 12
  pc := Register.new 12
  dr := Register.new 16
  ac := Register.new 16
  ir := Register.new 16
  tr := Register.new 16
  inpr := Register.new 8
  outr := Register.new 8
  sc := Register.new 3
  e := Register.new 1
  s := Register.new 1
  r := Register.new 1
  ien := Register.new 1
  fgi := Register.new 1
  fgo := Register.new 1

/-! ## cpu.rs: the micro-step CPU -/

/-- The memory array `[u16; 4096]`, modelled as a total function on
addresses (its Rust length is the constant 4096, written `MEMORY_LEN`
below wherever the source consults `self.memory.len()`). -/
def Memory : Type := Nat → Nat

/-- The constant `self.memory.len()` of the fixed-size array. -/
def MEMORY_LEN : Nat := 4096

/-- Pointwise array store `memory[address] = v`. -/
def memStore (m : Memory) (address v : Nat) : Memory :=
  fun x => if x = address then v else m x

/-- The CPU: register file plus 4096 words of memory (`cpu.rs::CPU`). -/
structure CPU where
  reg : Registers
  memory : Memory

namespace CPU

/-- `CPU::new`: all-zero memory. -/
def new : CPU :=
  ⟨Registers.new, fun _ => 0⟩

/-- `CPU::read_from_memory`: read at the address in AR, 0 when out of range. -/
def read_from_memory (c : CPU) : Nat :=
  let address := c.reg.ar.get
  if address < MEMORY_LEN then c.memory address else 0

/-- `CPU::write_to_memory`: write at the address in AR, dropped out of range. -/
def write_to_memory (c : CPU) (v : Nat) : CPU :=
  let address := c.reg.ar.get
  if address < MEMORY_LEN then { c with memory := memStore c.memory address v } else c

/-- Loop body of `CPU::load_program_into_memory` (the `enumerate` iteration,
`address` being the entry's index). -/
def load_loop (c : CPU) (messages : Messages) (listing : List (List Char))
    (address : Nat) : CPU × Messages :=
  match listing with
  | [] => (c, messages)
  | s :: rest =>
    match from_str_radix_u16 s with
    | some instruction =>
      if address < MEMORY_LEN then
        load_loop { c with memory := memStore c.memory address instruction }
          (messages.debug ("Loaded " ++ String.mk s ++ " into memory[" ++ natToDec address ++ "]"))
          rest (address + 1)
      else
        load_loop c messages rest (address + 1)
    | none =>
      load_loop c (messages.error ("Invalid instruction format: " ++ String.mk s))
        rest (address + 1)

/-- `CPU::load_program_into_memory` -/
def load_program_into_memory (c : CPU) (assembled_program : List (List Char)) :
    CPU × Messages :=
  load_loop c Messages.new assembled_program 0

/-- `CPU::set_program_start` -/
def set_program_start (c : CPU) (start : Nat) : CPU × Messages :=
  let c := { c with reg := { c.reg with pc := c.reg.pc.set start } }
  (c, Messages.new.info ("Program will start at address " ++ natToDec start))

/-- `CPU::reset`: PC ← 0, S ← 1, IR ← 1, then load the assembled program.
The `Messages` returned by the two helpers are discarded, as in the source. -/
def reset (c : CPU) (assembled_program : List (List Char)) : CPU :=
  let c := (c.set_program_start 0).1
  let c := { c with reg := { c.reg with s := c.reg.s.set 1 } }
  let c := { c with reg := { c.reg with ir := c.reg.ir.set 1 } }
  (c.load_program_into_memory assembled_program).1

/-- `CPU::get_opcode`: bits 12-14 of IR. -/
def get_opcode (c : CPU) : Nat :=
  (c.reg.ir.get >>> 12) &&& 7

/-- `CPU::get_indirect_bit`: bit 15 of IR. -/
def get_indirect_bit (c : CPU) : Nat :=
  (c.reg.ir.get >>> 15) &&& 1

/-- `CPU::get_instruction_bit`: the source renders IR as a 16-character binary
string, reverses it, and takes the position of the first `1` among the first
12 characters, defaulting to 0 — that is, the lowest set bit among bits 0..11
of IR, defaulting to 0 when none is set. -/
def get_instruction_bit (c : CPU) : Nat :=
  (((List.range 12).find? fun i => Nat.testBit c.reg.ir.get i).getD 0)

/-- `CPU::interrupt`: the three interrupt-cycle micro-steps. -/
def interrupt (c : CPU) (tick : Nat) (messages : Messages) : CPU × Messages :=
  if tick = 0 then
    let messages := messages.debug ("INTERRUPT RT0 : AR <- 0, TR <- PC")
    let c := { c with reg := { c.reg with ar := c.reg.ar.clear } }
    let c := { c with reg := { c.reg with tr := c.reg.tr.set c.reg.pc.get } }
    ({ c with reg := { c.reg with sc := c.reg.sc.increment } }, messages)
  else if tick = 1 then
    let messages := messages.debug ("INTERRUPT RT1 : M[AR] <- TR, PC <- 0")
    let c := c.write_to_memory c.reg.tr.get
    let c := { c with reg := { c.reg with pc := c.reg.pc.clear } }
    ({ c with reg := { c.reg with sc := c.reg.sc.increment } }, messages)
  else if tick = 2 then
    let messages := messages.debug ("INTERRUPT RT2 : PC <- PC + 1, IEN <- 0, R <- 0, SC <- 0")
    let c := { c with reg := { c.reg with pc := c.reg.pc.increment } }
    let c := { c with reg := { c.reg with ien := c.reg.ien.clear } }
    let c := { c with reg := { c.reg with r := c.reg.r.clear } }
    ({ c with reg := { c.reg with sc := c.reg.sc.clear } }, messages)
  else (c, messages)

/-- `CPU::instruction_fetch`: RT0 `AR ← PC`; RT1 `IR ← M[AR]`, `PC ← PC + 1`. -/
def instruction_fetch (c : CPU) (tick : Nat) (messages : Messages) : CPU × Messages :=
  if tick = 0 then
    let messages := messages.debug ("FETCH R'T0 : AR <- PC")
    let c := { c with reg := { c.reg with ar := c.reg.ar.set c.reg.pc.get } }
    ({ c with reg := { c.reg with sc := c.reg.sc.increment } }, messages)
  else if tick = 1 then
    let messages := messages.debug ("FETCH R'T1 : IR <- M[AR], PC <- PC + 1")
    let c := { c with reg := { c.reg with ir := c.reg.ir.set c.read_from_memory } }
    let c := { c with reg := { c.reg with pc := c.reg.pc.increment } }
    ({ c with reg := { c.reg with sc := c.reg.sc.increment } }, messages)
  else (c, messages)

/-- `CPU::instruction_decode`: RT2 `AR ← IR(0-11)`. -/
def instruction_decode (c : CPU) (messages : Messages) : CPU × Messages :=
  let messages := messages.debug ("DECODE R'T2 : AR <- IR(0-11)")
  let address_bits := c.reg.ir.get &&& 0x0FFF
  let c := { c with reg := { c.reg with ar := c.reg.ar.set address_bits } }
  ({ c with reg := { c.reg with sc := c.reg.sc.increment } }, messages)

/-- `CPU::fetch_operand`: indirect resolution `AR ← M[AR]` when `I = 1`,
no-op otherwise; SC is incremented either way. -/
def fetch_operand (c : CPU) (i_bit : Nat) (messages : Messages) : CPU × Messages :=
  let (c, messages) :=
    if i_bit = 1 then
      let messages := messages.debug ("INDIRECT D7'IT3 : AR <- M[AR]")
      ({ c with reg := { c.reg with ar := c.reg.ar.set c.read_from_memory } }, messages)
    else (c, messages)
  ({ c with reg := { c.reg with sc := c.reg.sc.increment } }, messages)

/-- `CPU::and` (MRI AND, opcode 0). -/
def and (c : CPU) (messages : Messages) (tick : Nat) : CPU × Messages :=
  if tick = 4 then
    let messages := messages.debug ("AND D0T4 DR <- M[AR]")
    let c := { c with reg := { c.reg with dr := c.reg.dr.set c.read_from_memory } }
    ({ c with reg := { c.reg with sc := c.reg.sc.increment } }, messages)
  else if tick = 5 then
    let messages := messages.debug ("AND D0T5 : AC <- AC & DR, SC <- 0")
    let c := { c with reg := { c.reg with ac := c.reg.ac.logic_and c.reg.dr.get } }
    ({ c with reg := { c.reg with sc := c.reg.sc.clear } }, messages)
  else (c, messages)

/-- `CPU::add` (MRI ADD, opcode 1). -/
def add (c : CPU) (messages : Messages) (tick : Nat) : CPU × Messages :=
  if tick = 4 then
    let messages := messages.debug ("ADD D1T4 : DR <- M[AR]")
    let c := { c with reg := { c.reg with dr := c.reg.dr.set c.read_from_memory } }
    ({ c with reg := { c.reg with sc := c.reg.sc.increment } }, messages)
  else if tick = 5 then
    let messages := messages.debug ("ADD D1T5 : AC <- AC + DR, E <- Cout, SC <- 0")
    let p := c.reg.ac.add c.reg.dr.get
    let c := { c with reg := { c.reg with ac := p.1 } }
    let c := { c with reg := { c.reg with e := c.reg.e.set p.2 } }
    ({ c with reg := { c.reg with sc := c.reg.sc.clear } }, messages)
  else (c, messages)

/-- `CPU::lda` (MRI LDA, opcode 2). -/
def lda (c : CPU) (messages : Messages) (tick : Nat) : CPU × Messages :=
  if tick = 4 then
    let messages := messages.debug ("LDA D2T4 : DR <- M[AR]")
    let c := { c with reg := { c.reg with dr := c.reg.dr.set c.read_from_memory } }
    ({ c with reg := { c.reg with sc := c.reg.sc.increment } }, messages)
  else if tick = 5 then
    let messages := messages.debug ("LDA D2T5 : AC <- DR, SC <- 0")
    let c := { c with reg := { c.reg with ac := c.reg.ac.set c.reg.dr.get } }
    ({ c with reg := { c.reg with sc := c.reg.sc.clear } }, messages)
  else (c, messages)

/-- `CPU::sta` (MRI STA, opcode 3). -/
def sta (c : CPU) (messages : Messages) : CPU × Messages :=
  let messages := messages.debug ("STA D3T4 : M[AR] <- AC, SC <- 0")
  let c := c.write_to_memory c.reg.ac.get
  ({ c with reg := { c.reg with sc := c.reg.sc.clear } }, messages)

/-- `CPU::bun` (MRI BUN, opcode 4). -/
def bun (c : CPU) (messages : Messages) : CPU × Messages :=
  let messages := messages.debug ("BUN D4T4 :PC <- AR, SC <- 0")
  let c := { c with reg := { c.reg with pc := c.reg.pc.set c.reg.ar.get } }
  ({ c with reg := { c.reg with sc := c.reg.sc.clear } }, messages)

/-- `CPU::bsa` (MRI BSA, opcode 5). -/
def bsa (c : CPU) (messages : Messages) (tick : Nat) : CPU × Messages :=
  if tick = 4 then
    let messages := messages.debug ("BSA D5T4 : M[AR] <- PC, AR <- AR + 1")
    let c := c.write_to_memory c.reg.pc.get
    let c := { c with reg := { c.reg with ar := c.reg.ar.increment } }
    ({ c with reg := { c.reg with sc := c.reg.sc.increment } }, messages)
  else if tick = 5 then
    let messages := messages.debug ("BSA D5T5 :PC <- AR, SC <- 0")
    let c := { c with reg := { c.reg with pc := c.reg.pc.set c.reg.ar.get } }
    ({ c with reg := { c.reg with sc := c.reg.sc.clear } }, messages)
  else (c, messages)

/-- `CPU::isz` (MRI ISZ, opcode 6). -/
def isz (c : CPU) (messages : Messages) (tick : Nat) : CPU × Messages :=
  if tick = 4 then
    let messages := messages.debug ("ISZ D6T4 : DR <- M[AR]")
    let c := { c with reg := { c.reg with dr := c.reg.dr.set c.read_from_memory } }
    ({ c with reg := { c.reg with sc := c.reg.sc.increment } }, messages)
  else if tick = 5 then
    let messages := messages.debug ("ISZ D6T5 : DR <- DR + 1")
    let c := { c with reg := { c.reg with dr := c.reg.dr.increment } }
    ({ c with reg := { c.reg with sc := c.reg.sc.increment } }, messages)
  else if tick = 6 then
    let messages := messages.debug
      ("ISZ D6T6 : M[AR] <- DR, if (DR = 0) then (PC <- PC + 1), SC <- 0")
    let c := c.write_to_memory c.reg.dr.get
    let c :=
      if c.reg.dr.get = 0 then { c with reg := { c.reg with pc := c.reg.pc.increment } }
      else c
    ({ c with reg := { c.reg with sc := c.reg.sc.clear } }, messages)
  else (c, messages)

/-- `CPU::cla` (RRI, bit 11): AC ← 0. -/
def cla (c : CPU) (messages : Messages) : CPU × Messages :=
  let messages := messages.debug ("CLA D7I'T3rB11 : AC <- 0, SC <- 0")
  ({ c with reg := { c.reg with ac := c.reg.ac.clear } }, messages)

/-- `CPU::cle` (RRI, bit 10): E ← 0. -/
def cle (c : CPU) (messages : Messages) : CPU × Messages :=
  let messages := messages.debug ("CLE D7I'T3rB10 : E <- 0, SC <- 0")
  ({ c with reg := { c.reg with e := c.reg.e.clear } }, messages)

/-- `CPU::cma` (RRI, bit 9): AC ← ¬AC. -/
def cma (c : CPU) (messages : Messages) : CPU × Messages :=
  let messages := messages.debug ("CMA D7I'T3rB9 : AC <- AC', SC <- 0")
  ({ c with reg := { c.reg with ac := c.reg.ac.complement } }, messages)

/-- `CPU::cme` (RRI, bit 8): E ← ¬E. -/
def cme (c : CPU) (messages : Messages) : CPU × Messages :=
  let messages := messages.debug ("CME D7I'T3rB8 : E <- E', SC <- 0")
  ({ c with reg := { c.reg with e := c.reg.e.complement } }, messages)

/-- `CPU::cir` (RRI, bit 7): circulate AC right through E. -/
def cir (c : CPU) (messages : Messages) : CPU × Messages :=
  let messages := messages.debug
    ("CIR D7I'T3rB7 : AC <- shr AC, AC(15) <- E, E <- AC(0), SC <- 0")
  let p := c.reg.ac.shift_right c.reg.e.get
  let c := { c with reg := { c.reg with ac := p.1 } }
  ({ c with reg := { c.reg with e := c.reg.e.set p.2 } }, messages)

/-- `CPU::cil` (RRI, bit 6): circulate AC left through E. -/
def cil (c : CPU) (messages : Messages) : CPU × Messages :=
  let messages := messages.debug
    ("CIL D7I'T3rB6 : AC <- shl AC, AC(0) <- E, E <- AC(15), SC <- 0")
  let p := c.reg.ac.shift_left c.reg.e.get
  let c := { c with reg := { c.reg with ac := p.1 } }
  ({ c with reg := { c.reg with e := c.reg.e.set p.2 } }, messages)

/-- `CPU::inc` (RRI, bit 5): AC ← AC + 1. -/
def inc (c : CPU) (messages : Messages) : CPU × Messages :=
  let messages := messages.debug ("INC D7I'T3rB5 : AC <- AC + 1, SC <- 0")
  ({ c with reg := { c.reg with ac := c.reg.ac.increment } }, messages)

/-- `CPU::spa` (RRI, bit 4): skip when AC bit 15 is 0. -/
def spa (c : CPU) (messages : Messages) : CPU × Messages :=
  let messages := messages.debug
    ("SPA D7I'T3rB4 : if (AC(15) = 0) then (PC <- PC + 1), SC <- 0")
  if c.reg.ac.get &&& 0x8000 = 0 then
    ({ c with reg := { c.reg with pc := c.reg.pc.increment } }, messages)
  else (c, messages)

/-- `CPU::sna` (RRI, bit 3): skip when AC bit 15 is 1. -/
def sna (c : CPU) (messages : Messages) : CPU × Messages :=
  let messages := messages.debug
    ("SNA D7I'T3rB3 : if (AC(15) = 1) then (PC <- PC + 1), SC <- 0")
  if c.reg.ac.get &&& 0x8000 ≠ 0 then
    ({ c with reg := { c.reg with pc := c.reg.pc.increment } }, messages)
  else (c, messages)

/-- `CPU::sza` (RRI, bit 2): skip when AC = 0. -/
def sza (c : CPU) (messages : Messages) : CPU × Messages :=
  let messages := messages.debug ("SZA D7I'T3rB2 : if (AC = 0) then (PC <- PC + 1), SC <- 0")
  if c.reg.ac.get = 0 then
    ({ c with reg := { c.reg with pc := c.reg.pc.increment } }, messages)
  else (c, messages)

/-- `CPU::sze` (RRI, bit 1): skip when E = 0. -/
def sze (c : CPU) (messages : Messages) : CPU × Messages :=
  let messages := messages.debug ("SZE D7I'T3rB1 : if (E = 0) then (PC <- PC + 1), SC <- 0")
  if c.reg.e.get = 0 then
    ({ c with reg := { c.reg with pc := c.reg.pc.increment } }, messages)
  else (c, messages)

/-- `CPU::hlt` (RRI, bit 0): S ← 0 with a "Halting" error. -/
def hlt (c : CPU) (messages : Messages) : CPU × Messages :=
  let messages := messages.debug ("HLT D7I'T3rB0 : S <- 0, SC <- 0")
  let messages := messages.error ("Halting")
  ({ c with reg := { c.reg with s := c.reg.s.set 0 } }, messages)

/-- `CPU::inp` (I/O, bit 11): recognized, inert. -/
def inp (c : CPU) (messages : Messages) : CPU × Messages :=
  (c, messages.debug ("INP :"))

/-- `CPU::out` (I/O, bit 10): recognized, inert. -/
def out (c : CPU) (messages : Messages) : CPU × Messages :=
  (c, messages.debug ("OUT :"))

/-- `CPU::ski` (I/O, bit 9): recognized, inert. -/
def ski (c : CPU) (messages : Messages) : CPU × Messages :=
  (c, messages.debug ("SKI :"))

/-- `CPU::sko` (I/O, bit 8): recognized, inert. -/
def sko (c : CPU) (messages : Messages) : CPU × Messages :=
  (c, messages.debug ("SKO :"))

/-- `CPU::ion` (I/O, bit 7): IEN ← 1. -/
def ion (c : CPU) (messages : Messages) : CPU × Messages :=
  let messages := messages.debug ("ION D7IT3pB7 : IEN <- 1, SC <- 0")
  ({ c with reg := { c.reg with ien := c.reg.ien.set 1 } }, messages)

/-- `CPU::iof` (I/O, bit 6): IEN ← 0. -/
def iof (c : CPU) (messages : Messages) : CPU × Messages :=
  let messages := messages.debug ("IOF D7IT3pB6 : IEN <- 0, SC <- 0")
  ({ c with reg := { c.reg with ien := c.reg.ien.set 0 } }, messages)

/-- `CPU::execute_mri`: dispatch on the opcode (0..6). -/
def execute_mri (c : CPU) (opcode tick : Nat) (messages : Messages) : CPU × Messages :=
  match opcode with
  | 0 => CPU.and c messages tick
  | 1 => CPU.add c messages tick
  | 2 => lda c messages tick
  | 3 => sta c messages
  | 4 => bun c messages
  | 5 => bsa c messages tick
  | 6 => isz c messages tick
  | _ => (c, messages.error ("Unknown MRI opcode: " ++ natToDec opcode))

/-- `CPU::execute_rri`: dispatch on the selected bit; SC ← 0 afterwards. -/
def execute_rri (c : CPU) (instruction : Nat) (messages : Messages) : CPU × Messages :=
  let (c, messages) :=
    match instruction with
    | 11 => cla c messages
    | 10 => cle c messages
    | 9 => cma c messages
    | 8 => cme c messages
    | 7 => cir c messages
    | 6 => cil c messages
    | 5 => inc c messages
    | 4 => spa c messages
    | 3 => sna c messages
    | 2 => sza c messages
    | 1 => sze c messages
    | 0 => hlt c messages
    | _ => (c, messages.error ("Unknown RRI instruction: " ++ natToDec instruction))
  ({ c with reg := { c.reg with sc := c.reg.sc.clear } }, messages)

/-- `CPU::execute_io`: dispatch on the selected bit; SC ← 0 afterwards. -/
def execute_io_ops (c : CPU) (instruction : Nat) (messages : Messages) : CPU × Messages :=
  let (c, messages) :=
    match instruction with
    | 11 => inp c messages
    | 10 => out c messages
    | 9 => ski c messages
    | 8 => sko c messages
    | 7 => ion c messages
    | 6 => iof c messages
    | _ => (c, messages.error ("Unknown IO instruction: " ++ natToDec instruction))
  ({ c with reg := { c.reg with sc := c.reg.sc.clear } }, messages)

/-- `CPU::tick`: one micro-step, dispatching on `(SC, R, opcode, I)` by the
same else-if chain as the source (Figure 5-15).  When no branch applies, the
chain falls through and the CPU is returned unchanged. -/
def tick (c : CPU) (messages : Messages) : CPU × Messages :=
  let tick := c.reg.sc.get
  let interrupt_raised := c.reg.r.get
  let opcode := get_opcode c
  let i_bit := get_indirect_bit c
  if tick < 3 ∧ interrupt_raised = 1 then interrupt c tick messages
  else if tick < 2 ∧ interrupt_raised = 0 then instruction_fetch c tick messages
  else if tick = 2 ∧ interrupt_raised = 0 then instruction_decode c messages
  else if tick = 3 ∧ opcode ≠ 7 then fetch_operand c i_bit messages
  else if tick > 3 ∧ opcode ≠ 7 then execute_mri c opcode tick messages
  else if tick = 3 ∧ opcode = 7 then
    let instruction := get_instruction_bit c
    if i_bit = 1 then execute_io_ops c instruction messages
    else execute_rri c instruction messages
  else (c, messages)

end CPU

/-! ## storage.rs and the symbol table (a `HashMap` modelled as an
association list with replace-on-insert, matching `HashMap::insert`) -/

/-- Lookup in the symbol table (`HashMap::get`). -/
def tableGet (t : List (List Char × Nat)) (k : List Char) : Option Nat :=
  (t.find? fun p => p.1 == k).map fun p => p.2

/-- Key-membership test (`HashMap::contains_key`). -/
def tableContains (t : List (List Char × Nat)) (k : List Char) : Bool :=
  (tableGet t k).isSome

/-- Insert (`HashMap::insert`): replaces the binding when the key exists. -/
def tableInsert (t : List (List Char × Nat)) (k : List Char) (v : Nat) :
    List (List Char × Nat) :=
  if t.any (fun p => p.1 == k) then
    t.map fun p => if p.1 == k then (k, v) else p
  else t ++ [(k, v)]

/-- `storage.rs::Storage`: source listing, assembled listing, symbol table. -/
structure Storage where
  source_program : List (List Char)
  assembled_program : List (List Char)
  address_symbol_table : List (List Char × Nat)
deriving DecidableEq, Repr

/-- `Storage::new` -/
def Storage.new : Storage := ⟨[], [], []⟩

/-- `Storage::load_program`: replace the source, clear the assembled listing
and the symbol table, report success. -/
def Storage.load_program (_st : Storage) (program : List (List Char))
    (messages : Messages) : Storage × Messages :=
  (⟨program, [], []⟩, messages.info ("Program loaded successfully"))

/-! ## assembler.rs: the two-pass assembler -/

/-- The reserved pseudo-instruction tokens. -/
def PSEUDO_INSTRUCTIONS : List (List Char) :=
  ["ORG".data, "HEX".data, "DEC".data, "END".data]

/-- `assembler.rs::ParsedInstruction` -/
structure ParsedInstruction where
  instruction : List Char
  operand : Option (List Char)
  indirect : Bool
deriving DecidableEq, Repr

/-- `ParsedInstruction::is_empty` -/
def ParsedInstruction.is_empty (p : ParsedInstruction) : Bool :=
  p.instruction.isEmpty

/-- `assembler.rs::parse_line_fast`: strip the comment, trim, drop a label
up to the first comma, then split on whitespace into instruction, operand
and modifier; the modifier `i` selects indirect addressing. -/
def parse_line_fast (line : List Char) : ParsedInstruction :=
  let line := trimChars (line.takeWhile fun c => c != '/')
  if line.isEmpty then ⟨[], none, false⟩
  else
    let line :=
      if line.any (fun c => c == ',') then
        trimChars ((line.dropWhile fun c => c != ',').drop 1)
      else line
    if line.isEmpty then ⟨[], none, false⟩
    else
      let parts := splitWS line
      let instruction := (parts.get? 0).getD []
      let operand := parts.get? 1
      let modifier := parts.get? 2
      ⟨instruction, operand, modifier == some ['i']⟩

/-- `assembler.rs::get_mri_table` -/
def mri_table : List (List Char × Nat) :=
  [("AND".data, 0x0000), ("ADD".data, 0x1000), ("LDA".data, 0x2000),
   ("STA".data, 0x3000), ("BUN".data, 0x4000), ("BSA".data, 0x5000),
   ("ISZ".data, 0x6000)]

/-- `assembler.rs::get_rri_table` -/
def rri_table : List (List Char × Nat) :=
  [("CLA".data, 0x7800), ("CLE".data, 0x7400), ("CMA".data, 0x7200),
   ("CME".data, 0x7100), ("CIR".data, 0x7080), ("CIL".data, 0x7040),
   ("INC".data, 0x7020), ("SPA".data, 0x7010), ("SNA".data, 0x7008),
   ("SZA".data, 0x7004), ("SZE".data, 0x7002), ("HLT".data, 0x7001)]

/-- `assembler.rs::get_io_table` -/
def io_table : List (List Char × Nat) :=
  [("INP".data, 0xF800), ("OUT".data, 0xF400), ("SKI".data, 0xF200),
   ("SKO".data, 0xF100), ("ION".data, 0xF080), ("IOF".data, 0xF040)]

/-- First position of a substring (`str::find(pat).unwrap_or(0)` is only
consulted after a containment check in the source). -/
def findSubstrPos (pat : List Char) : List Char → Nat
  | [] => 0
  | c :: rest => if seqStartsWith (c :: rest) pat then 0 else findSubstrPos pat rest + 1

/-- `assembler.rs::add_detailed_error`: pretty error context for a line. -/
def add_detailed_error (program : List (List Char)) (line_index : Int)
    (error cause : String) (messages : Messages) : Messages :=
  if line_index ≥ 0 then
    let faulty_line := trimChars (program.getD line_index.toNat [])
    let messages := messages.error ("Error at line " ++ natToDec line_index.toNat ++ ": ")
    let messages := messages.error
      (" <" ++ natToDec line_index.toNat ++ "> " ++ String.mk faulty_line)
    let padding :=
      if cause ≠ "" ∧ containsSubstr cause.data faulty_line then
        4 + (natToDec line_index.toNat).length + findSubstrPos cause.data faulty_line
      else 4 + (natToDec line_index.toNat).length
    let messages := messages.error (String.mk (List.replicate padding ' ') ++ "^")
    messages.error (String.mk (List.replicate padding ' ') ++ error)
  else messages.error ("Error in program")

/-- Label-scanning loop of `pass_one` (the `for i in 0..len` loop; `program`
is the full source for error context, the second argument the remaining
lines starting at index `i`).  The address `i as u32 + origin - 1` is `u32`
arithmetic, so it wraps modulo `2^32` (underflow at `i = 0, origin = 0`). -/
def p1_loop (program : List (List Char)) : List (List Char) → Nat → Nat →
    List (List Char × Nat) → Messages → List (List Char × Nat) × Messages
  | [], _, _, table, messages => (table, messages)
  | line :: rest, i, origin, table, messages =>
    let parsed := parse_line_fast line
    if parsed.is_empty then p1_loop program rest (i + 1) origin table messages
    else if parsed.instruction == "END".data then
      (table, messages.debug
        ("Found END of symbolic program at program line " ++ natToDec (i + 1)))
    else if line.any (fun c => c == ',') then
      let label := trimChars (line.takeWhile fun c => c != ',')
      if PSEUDO_INSTRUCTIONS.contains label then
        let messages := messages.error
          ("Cannot use invalid label \"" ++ String.mk label ++ "\"")
        (table, add_detailed_error program (Int.ofNat i) "" "" messages)
      else if tableContains table label then
        let messages := messages.error
          ("Label \"" ++ String.mk label ++ "\" is already used")
        (table, add_detailed_error program (Int.ofNat i) "" "" messages)
      else
        let address := (i + origin + 4294967295) % 4294967296
        let messages := messages.debug
          ("Found label \"" ++ String.mk label ++ "\" at program line "
            ++ natToDec (i + 1) ++ ", address " ++ natToDec address)
        p1_loop program rest (i + 1) origin (tableInsert table label address) messages
    else p1_loop program rest (i + 1) origin table messages

/-- `assembler.rs::pass_one`: clear the symbol table, read the origin from an
`ORG` first line (the operand must parse as *decimal* `u32`; its *hex* value
is then stored), then record label addresses until `END`. -/
def pass_one (storage : Storage) : Storage × Messages :=
  let messages := Messages.new
  if storage.source_program.isEmpty then
    ({ storage with address_symbol_table := [] }, messages)
  else
    let first_line := storage.source_program.headD []
    if containsSubstr "ORG".data first_line then
      let parsed := parse_line_fast first_line
      if parsed.instruction == "ORG".data then
        match parsed.operand with
        | some addr_str =>
          if (parseU32 addr_str).isSome then
            let origin := (from_str_radix_u32 addr_str).getD 0
            let table := tableInsert [] "ORG".data origin
            let messages := messages.debug ("ORG is at address " ++ natToDec origin)
            let (table, messages) :=
              p1_loop storage.source_program storage.source_program 0 origin table messages
            ({ storage with address_symbol_table := table }, messages)
          else
            ({ storage with address_symbol_table := [] },
              messages.error ("Invalid address for ORG instruction"))
        | none =>
          ({ storage with address_symbol_table := [] },
            messages.error ("Missing address for ORG instruction"))
      else
        ({ storage with address_symbol_table := [] },
          messages.error ("Invalid syntax for ORG instruction"))
    else
      let table := tableInsert [] "ORG".data 0
      let messages := messages.debug ("No ORG found on first line, setting to 0")
      let (table, messages) :=
        p1_loop storage.source_program storage.source_program 0 0 table messages
      ({ storage with address_symbol_table := table }, messages)

/-- Grow the assembled listing with empty strings so that index
`binary_location` exists, then write `v` there (the `while … push` pattern). -/
def growSet (assembled : List (List Char)) (binary_location : Nat) (v : List Char) :
    List (List Char) :=
  let assembled := assembled ++ List.replicate (binary_location + 1 - assembled.length) []
  assembled.set binary_location v

/-- The per-line debug text of `pass_two`. -/
def emitMsg (instruction : List Char) (i : Nat) (binary_instruction : List Char)
    (binary_location : Nat) : String :=
  "Instruction \"" ++ String.mk instruction ++ "\" at program line " ++ natToDec i
    ++ " and converted to \"" ++ String.mk binary_instruction
    ++ "\" at binary program location " ++ natToDec binary_location

/-- Emission loop of `pass_two` (the `for i in 0..len` loop).  `DEC`/`HEX`
operands must parse as decimal `i32` before the value is taken (`DEC` as
`i16` two's complement, `HEX` re-parsed as hexadecimal `u16`); MRI words are
`opcode + address (+ 0x8000)` in wrapping `u16` arithmetic rendered with
minimal-width hex; every emitting or erroring line advances the cursor. -/
def p2_loop (table : List (List Char × Nat)) : List (List Char) → Nat → Nat →
    List (List Char) → Messages → List (List Char) × Messages
  | [], _, _, assembled, messages => (assembled, messages)
  | line :: rest, i, binary_location, assembled, messages =>
    let parsed := parse_line_fast line
    if parsed.is_empty then p2_loop table rest (i + 1) binary_location assembled messages
    else if PSEUDO_INSTRUCTIONS.contains parsed.instruction then
      if parsed.instruction == "ORG".data then
        p2_loop table rest (i + 1) binary_location assembled messages
      else if parsed.instruction == "END".data then (assembled, messages)
      else if parsed.instruction == "DEC".data || parsed.instruction == "HEX".data then
        match parsed.operand with
        | some operand =>
          if (parseI32 operand).isSome then
            let binary_instruction :=
              if parsed.instruction == "DEC".data then
                toHexPad4 ((((parseI16 operand).getD 0).emod 65536).toNat)
              else
                toHexPad4 ((from_str_radix_u16 operand).getD 0)
            let assembled := growSet assembled binary_location binary_instruction
            let messages := messages.debug
              (emitMsg parsed.instruction i binary_instruction binary_location)
            p2_loop table rest (i + 1) (binary_location + 1) assembled messages
          else
            let messages := messages.error ("Invalid operand \"" ++ String.mk operand
              ++ "\" for instruction \"" ++ String.mk parsed.instruction ++ "\"")
            p2_loop table rest (i + 1) (binary_location + 1) assembled messages
        | none =>
          p2_loop table rest (i + 1) (binary_location + 1) assembled
            (messages.error ("Missing operand"))
      else
        p2_loop table rest (i + 1) (binary_location + 1) assembled
          (messages.error ("Invalid pseudoinstruction \"" ++ String.mk parsed.instruction ++ "\""))
    else if tableContains mri_table parsed.instruction then
      let (label, messages) :=
        match parsed.operand with
        | some lab => (lab, messages)
        | none => ([], messages.error ("Missing operand for memory reference instruction"))
      let (label_address, messages) :=
        match tableGet table label with
        | some addr => (addr, messages)
        | none => (0, messages.error ("Unknown label \"" ++ String.mk label ++ "\""))
      let hex0 := ((tableGet mri_table parsed.instruction).getD 0 + label_address % 65536) % 65536
      let hex1 := if parsed.indirect then (hex0 + 0x8000) % 65536 else hex0
      let binary_instruction := toHexMinimal hex1
      let assembled := growSet assembled binary_location binary_instruction
      let messages := messages.debug
        (emitMsg parsed.instruction i binary_instruction binary_location)
      p2_loop table rest (i + 1) (binary_location + 1) assembled messages
    else if tableContains rri_table parsed.instruction
        || tableContains io_table parsed.instruction then
      let binary_instruction :=
        match tableGet rri_table parsed.instruction with
        | some opcode => toHexMinimal opcode
        | none =>
          match tableGet io_table parsed.instruction with
          | some opcode => toHexMinimal opcode
          | none => []
      let assembled := growSet assembled binary_location binary_instruction
      let messages := messages.debug
        (emitMsg parsed.instruction i binary_instruction binary_location)
      p2_loop table rest (i + 1) (binary_location + 1) assembled messages
    else
      p2_loop table rest (i + 1) (binary_location + 1) assembled
        (messages.error ("Unknown instruction \"" ++ String.mk parsed.instruction ++ "\""))

/-- `assembler.rs::pass_two`: clear the assembled listing, start the cursor
at the stored origin, emit line by line, and summarize the error count. -/
def pass_two (machine : Storage) : Storage × Messages :=
  let messages := Messages.new
  let machine := { machine with assembled_program := [] }
  let (origin, messages) :=
    match tableGet machine.address_symbol_table "ORG".data with
    | some origin_val => (origin_val, messages)
    | none => (0, messages.error ("Address symbol table does not contain entry for ORG"))
  let binary_location := origin
  let messages := messages.debug ("Set binary start location to " ++ natToDec binary_location)
  let (assembled, messages) :=
    p2_loop machine.address_symbol_table machine.source_program 0 binary_location [] messages
  let messages :=
    if messages.error_count > 0 then
      if messages.error_count = 1 then messages.info ("Encountered 1 error")
      else messages.info ("Encountered " ++ natToDec messages.error_count ++ " errors")
    else messages
  ({ machine with assembled_program := assembled }, messages)

/-- `assembler.rs::assemble`: empty-source check, pass one, then (when error
free) pass two and the success message. -/
def assemble (messages : Messages) (storage : Storage) : Messages × Storage :=
  let messages :=
    if storage.source_program.isEmpty then messages.error ("No source program loaded")
    else messages
  let (storage, pass_one_result) := pass_one storage
  let messages := messages.combine pass_one_result
  if messages.has_errors then (messages, storage)
  else
    let (storage, pass_two_result) := pass_two storage
    let messages := messages.combine pass_two_result
    let messages :=
      if !messages.has_errors then messages.info ("Assembly completed successfully")
      else messages
    (messages, storage)

/-! ## machine.rs: the facade -/

/-- `machine.rs::Machine`: storage plus CPU. -/
structure Machine where
  storage : Storage
  cpu : CPU

namespace Machine

/-- `Machine::new` -/
def new : Machine := ⟨Storage.new, CPU.new⟩

/-- `Machine::is_halted`: `S = 0`. -/
def is_halted (m : Machine) : Bool :=
  m.cpu.reg.s.get == 0

/-- `Machine::is_primed`: the source returns `false` unconditionally
(marked TODO in machine.rs). -/
def is_primed (_ : Machine) : Bool :=
  false

/-- `Machine::prime`: load the source, assemble, then reset (reset runs
unconditionally, also when assembly produced errors). -/
def prime (m : Machine) (program : List (List Char)) : Machine × Messages :=
  let messages := Messages.new
  let (storage, messages) := m.storage.load_program program messages
  let (messages, storage) := assemble messages storage
  let cpu := m.cpu.reset storage.assembled_program
  let messages := messages.info ("Machine reset")
  (⟨storage, cpu⟩, messages)

/-- `Machine::tick`: reject with an error when halted, else one CPU tick. -/
def tick (m : Machine) (messages : Messages) : Machine × Messages :=
  if m.is_halted then (m, messages.error ("Machine halted, please reset"))
  else
    let (cpu, messages) := m.cpu.tick messages
    ({ m with cpu := cpu }, messages)

end Machine

/-- Iterate `Machine::tick` a fixed number of times (the callers' tick loop). -/
def tickN : Machine → Messages → Nat → Machine × Messages
  | m, messages, 0 => (m, messages)
  | m, messages, n + 1 =>
    let (m2, messages2) := m.tick messages
    tickN m2 messages2 n

/-! ## Concrete programs and machine states used by the claims -/

/-- Convert string literals to the `List Char` line representation. -/
def strs (l : List String) : List (List Char) :=
  l.map String.data

/-- The basic-addition program of scenario 1. -/
def c1_program : List (List Char) :=
  strs ["ORG 0", "LDA A", "ADD B", "STA C", "HLT", "A, DEC 83", "B, DEC -23", "C, DEC 0", "END"]

/-- A program on which the assembler reports an error (unknown instruction). -/
def c2_program : List (List Char) :=
  strs ["ORG 0", "LDA A", "BADOP B", "HLT", "A, DEC 5", "B, DEC 10", "END"]

/-- The indirect-addressing program of scenario 2. -/
def c4_program : List (List Char) :=
  strs ["ORG 0", "LDA PTR i", "HLT", "PTR, HEX 0003", "VAL, HEX 00AB", "END"]

/-- A minimal successfully assembling program. -/
def c6_program : List (List Char) :=
  strs ["ORG 0", "HLT", "END"]

/-- A machine whose sequence counter is mid-instruction (SC = 5) before
a fresh `prime`. -/
def m6pre : Machine :=
  { Machine.new with cpu := { CPU.new with reg := { Registers.new with sc := ⟨5, 7⟩ } } }

/-- CPU state at SC = 3 holding `IR = 0x7000` (opcode 7, I = 0, bits 0..11
all zero), running (S = 1), no interrupt pending. -/
def c10cpu : CPU :=
  { CPU.new with reg := { Registers.new with
      sc := ⟨3, 7⟩, ir := ⟨0x7000, 65535⟩, s := ⟨1, 1⟩ } }

/-- Machine state at SC = 4 holding `IR = 0x7000` (opcode 7), running. -/
def m8 : Machine :=
  { Machine.new with cpu := { CPU.new with reg := { Registers.new with
      sc := ⟨4, 7⟩, ir := ⟨0x7000, 65535⟩, s := ⟨1, 1⟩ } } }

/-- A CPU whose accumulator holds `0xABCD` with `E = 1`. -/
def c9cpu : CPU :=
  { CPU.new with reg := { Registers.new with ac := ⟨0xABCD, 65535⟩, e := ⟨1, 1⟩ } }

/-- Characterization (for claim C5) of the diagnostics stream the loader
produces: a Debug entry per in-range parseable entry, an Error entry per
unparseable entry (the empty string included), and nothing at all for an
out-of-range parseable entry. -/
def loaderSpecMsgs : List (List Char) → Nat → List (Level × String)
  | [], _ => []
  | s :: rest, address =>
    match from_str_radix_u16 s with
    | some _ =>
      (if address < MEMORY_LEN then
        [(Level.Debug, "Loaded " ++ String.mk s ++ " into memory[" ++ natToDec address ++ "]")]
       else []) ++ loaderSpecMsgs rest (address + 1)
    | none =>
      (Level.Error, "Invalid instruction format: " ++ String.mk s)
        :: loaderSpecMsgs rest (address + 1)

/-- The nine alternatives a tick can take (for claim C8): the eight of the
dispatch table plus the fall-through of the else-if chain. -/
inductive TickAlt
  | interruptCycle
  | fetchCycle
  | decodeCycle
  | indirectCycle
  | mriExecute
  | rriExecute
  | ioExecute
  | haltNoop
  | fallThrough
deriving DecidableEq, Repr

/-- The alternative selected by the dispatch tuple, with the guards written
exactly as in `Machine::tick` and `CPU::tick`. -/
def tickAlt (m : Machine) : TickAlt :=
  if m.is_halted then TickAlt.haltNoop
  else
    let tick := m.cpu.reg.sc.get
    let interrupt_raised := m.cpu.reg.r.get
    let opcode := CPU.get_opcode m.cpu
    let i_bit := CPU.get_indirect_bit m.cpu
    if tick < 3 ∧ interrupt_raised = 1 then TickAlt.interruptCycle
    else if tick < 2 ∧ interrupt_raised = 0 then TickAlt.fetchCycle
    else if tick = 2 ∧ interrupt_raised = 0 then TickAlt.decodeCycle
    else if tick = 3 ∧ opcode ≠ 7 then TickAlt.indirectCycle
    else if tick > 3 ∧ opcode ≠ 7 then TickAlt.mriExecute
    else if tick = 3 ∧ opcode = 7 then
      (if i_bit = 1 then TickAlt.ioExecute else TickAlt.rriExecute)
    else TickAlt.fallThrough

/-- The action each alternative performs on the machine. -/
def tickApply (a : TickAlt) (m : Machine) (messages : Messages) : Machine × Messages :=
  match a with
  | TickAlt.haltNoop => (m, messages.error ("Machine halted, please reset"))
  | TickAlt.interruptCycle =>
    let p := CPU.interrupt m.cpu m.cpu.reg.sc.get messages
    ({ m with cpu := p.1 }, p.2)
  | TickAlt.fetchCycle =>
    let p := CPU.instruction_fetch m.cpu m.cpu.reg.sc.get messages
    ({ m with cpu := p.1 }, p.2)
  | TickAlt.decodeCycle =>
    let p := CPU.instruction_decode m.cpu messages
    ({ m with cpu := p.1 }, p.2)
  | TickAlt.indirectCycle =>
    let p := CPU.fetch_operand m.cpu (CPU.get_indirect_bit m.cpu) messages
    ({ m with cpu := p.1 }, p.2)
  | TickAlt.mriExecute =>
    let p := CPU.execute_mri m.cpu (CPU.get_opcode m.cpu) m.cpu.reg.sc.get messages
    ({ m with cpu := p.1 }, p.2)
  | TickAlt.rriExecute =>
    let p := CPU.execute_rri m.cpu (CPU.get_instruction_bit m.cpu) messages
    ({ m with cpu := p.1 }, p.2)
  | TickAlt.ioExecute =>
    let p := CPU.execute_io_ops m.cpu (CPU.get_instruction_bit m.cpu) messages
    ({ m with cpu := p.1 }, p.2)
  | TickAlt.fallThrough => (m, messages)

set_option maxRecDepth 400000

/-! ## Helper lemmas -/

/-- Loading a program into memory never changes the register file. -/
theorem load_loop_reg (listing : List (List Char)) :
    ∀ c messages address, (CPU.load_loop c messages listing address).1.reg = c.reg := by
  induction listing with
  | nil => intro c messages address; rfl
  | cons s rest ih =>
    intro c messages address
    simp only [CPU.load_loop]
    cases h : from_str_radix_u16 s with
    | some v =>
      by_cases ha : address < MEMORY_LEN
      · simp [ha, ih]
      · simp [ha, ih]
    | none => simp [ih]

/-- `CPU::reset` leaves S holding `set 1` of the previous S register. -/
theorem reset_s (c : CPU) (asm : List (List Char)) :
    (CPU.reset c asm).reg.s = Register.set c.reg.s 1 := by
  unfold CPU.reset CPU.load_program_into_memory
  rw [load_loop_reg]
  rfl

/-- Setting the low bit by `|||` on an even number is addition. -/
theorem lor_two_mul_bit (x b : Nat) (hb : b < 2) : 2 * x ||| b = 2 * x + b := by
  rcases (by omega : b = 0 ∨ b = 1) with rfl | rfl
  · simp
  · apply Nat.eq_of_testBit_eq
    intro i
    cases i with
    | zero =>
      have h1 : 2 * x % 2 = 0 := by omega
      have h2 : (2 * x + 1) % 2 = 1 := by omega
      simp [Nat.testBit_or, Nat.testBit_zero, h1, h2]
    | succ i =>
      have h1 : 2 * x / 2 = x := by omega
      have h2 : (2 * x + 1) / 2 = x := by omega
      have h3 : (1 : Nat) / 2 = 0 := by omega
      rw [Nat.testBit_or, Nat.testBit_add_one, Nat.testBit_add_one, Nat.testBit_add_one,
        h1, h2, h3]
      simp

/-- Setting bit 15 by `|||` below `2^15` is addition. -/
theorem lor_high_bit (x : Nat) (hx : x < 32768) : x ||| 32768 = x + 32768 := by
  have h32 : (32768 : Nat) = 2 ^ 15 := by norm_num
  rw [h32]
  apply Nat.eq_of_testBit_eq
  intro i
  rw [Nat.testBit_or]
  rcases Nat.lt_trichotomy i 15 with hi | hi | hi
  · rw [Nat.add_comm x (2 ^ 15), Nat.testBit_two_pow_add_gt hi,
      Nat.testBit_two_pow_of_ne (by omega)]
    simp
  · subst hi
    rw [Nat.add_comm x (2 ^ 15), Nat.testBit_two_pow_add_eq,
      Nat.testBit_lt_two_pow (by omega), Nat.testBit_two_pow_self]
    simp
  · have hxi : x < 2 ^ i := by
      have : (2 : Nat) ^ 15 ≤ 2 ^ i := Nat.pow_le_pow_right (by omega) (by omega)
      omega
    have hsum : x + 2 ^ 15 < 2 ^ i := by
      have h1 : (2 : Nat) ^ 16 ≤ 2 ^ i := Nat.pow_le_pow_right (by omega) (by omega)
      have h2 : (2 : Nat) ^ 16 = 65536 := by norm_num
      have h3 : (2 : Nat) ^ 15 = 32768 := by norm_num
      omega
    rw [Nat.testBit_lt_two_pow hxi, Nat.testBit_lt_two_pow hsum,
      Nat.testBit_two_pow_of_ne (by omega)]
    simp

/-- Bit 15 of a number below `2^15` is clear. -/
theorem and_high_zero (x : Nat) (hx : x < 32768) : x &&& 32768 = 0 := by
  have h32 : (32768 : Nat) = 2 ^ 15 := by norm_num
  rw [h32, Nat.and_two_pow, Nat.testBit_lt_two_pow (by omega)]
  simp

/-- Bit 15 of `x + 2^15` is set when `x < 2^15`. -/
theorem and_high_sum (x : Nat) (hx : x < 32768) : (x + 32768) &&& 32768 = 32768 := by
  have h32 : (32768 : Nat) = 2 ^ 15 := by norm_num
  rw [h32, Nat.and_two_pow, Nat.add_comm x (2 ^ 15), Nat.testBit_two_pow_add_eq,
    Nat.testBit_lt_two_pow (by omega)]
  simp

/-- Masking a 16-bit value with `65535` is the identity. -/
theorem and_mask16 (x : Nat) (hx : x < 65536) : x &&& 65535 = x := by
  have h : (65535 : Nat) = 2 ^ 16 - 1 := by norm_num
  rw [h, Nat.and_pow_two_sub_one_of_lt_two_pow (by omega)]

/-- `shift_right` on a 16-bit register. -/
theorem shift_right_16 (a e : Nat) (ha : a < 65536) :
    Register.shift_right ⟨a, 65535⟩ e
      = (⟨if e ≠ 0 then a / 2 + 32768 else a / 2, 65535⟩, a % 2) := by
  have h1 : a &&& 1 = a % 2 := Nat.and_one_is_mod a
  have h2 : a >>> 1 = a / 2 := by
    rw [Nat.shiftRight_eq_div_pow]
  have h3 : a / 2 &&& 65535 = a / 2 := and_mask16 _ (by omega)
  by_cases he : e ≠ 0
  · have h6 : a / 2 ||| 32768 = a / 2 + 32768 := lor_high_bit _ (by omega)
    have h7 : (a / 2 + 32768) &&& 65535 = a / 2 + 32768 := and_mask16 _ (by omega)
    simp only [Register.shift_right, Register.set, h1, h2, h3, if_pos he]
    simp only [beq_self_eq_true, if_pos rfl, if_true, h6, h7]
  · simp only [Register.shift_right, Register.set, h1, h2, h3, if_neg he]

/-- `shift_left` on a 16-bit register holding `v`, low bit `b < 2`. -/
theorem shift_left_16 (v b : Nat) (hb : b < 2) :
    Register.shift_left ⟨v, 65535⟩ b
      = (⟨2 * (v % 32768) + b, 65535⟩, if v &&& 32768 ≠ 0 then 1 else 0) := by
  have h1 : b &&& 1 = b := by rw [Nat.and_one_is_mod]; omega
  have h2 : v <<< 1 = 2 * v := by rw [Nat.shiftLeft_eq]; ring
  have h3 : 2 * v % 65536 = 2 * (v % 32768) := by omega
  have h4 : 2 * (v % 32768) ||| b = 2 * (v % 32768) + b := lor_two_mul_bit _ _ hb
  have h5 : (2 * (v % 32768) + b) &&& 65535 = 2 * (v % 32768) + b :=
    and_mask16 _ (by omega)
  simp only [Register.shift_left, Register.set, beq_self_eq_true, if_pos rfl, if_true,
    h1, h2, h3, h4, h5]

/-- Replacing the binding of a different key does not change a lookup. -/
theorem find_map_replace_ne (k key : List Char) (v : Nat) (h : (k == key) = false) :
    ∀ t : List (List Char × Nat),
      List.find? (fun p => p.1 == key) (t.map fun p => if p.1 == k then (k, v) else p)
        = List.find? (fun p => p.1 == key) t := by
  intro t
  induction t with
  | nil => rfl
  | cons p rest ih =>
    simp only [List.map_cons, List.find?]
    by_cases hp : (p.1 == k) = true
    · have hpk : p.1 = k := eq_of_beq hp
      simp only [hp, if_true, List.find?]
      rw [show ((k, v).1 == key) = false from h, hpk, h, ih]
    · simp only [hp]
      simp only [Bool.false_eq_true, if_false, List.find?]
      by_cases hq : (p.1 == key) = true
      · simp [hq]
      · simp only [Bool.not_eq_true] at hq
        simp only [hq, Bool.false_eq_true, if_false]
        exact ih

/-- Appending a binding for a different key does not change a lookup. -/
theorem find_append_ne (k key : List Char) (v : Nat) (h : (k == key) = false) :
    ∀ t : List (List Char × Nat),
      List.find? (fun p => p.1 == key) (t ++ [(k, v)])
        = List.find? (fun p => p.1 == key) t := by
  intro t
  induction t with
  | nil => simp [List.find?, h]
  | cons p rest ih =>
    simp only [List.cons_append, List.find?]
    by_cases hq : (p.1 == key) = true
    · simp [hq]
    · simp only [Bool.not_eq_true] at hq
      simp [hq, ih]

/-- `tableInsert` with a different key does not change a lookup. -/
theorem tableGet_insert_ne (t : List (List Char × Nat)) (k key : List Char) (v : Nat)
    (h : (k == key) = false) :
    tableGet (tableInsert t k v) key = tableGet t key := by
  unfold tableInsert tableGet
  by_cases hc : t.any (fun p => p.1 == k)
  · simp only [hc, if_true, find_map_replace_ne k key v h]
  · simp only [hc, Bool.false_eq_true, if_false, find_append_ne k key v h]

/-- The label loop of pass one never touches the `ORG` entry (labels that
collide with a pseudo-instruction are rejected before insertion). -/
theorem p1_loop_preserves_org (program : List (List Char)) :
    ∀ (lines : List (List Char)) (i origin : Nat) (table : List (List Char × Nat))
      (messages : Messages),
      tableGet (p1_loop program lines i origin table messages).1 ("ORG".data)
        = tableGet table ("ORG".data) := by
  intro lines
  induction lines with
  | nil => intro i origin table messages; rfl
  | cons line rest ih =>
    intro i origin table messages
    simp only [p1_loop]
    split
    · exact ih ..
    · split
      · rfl
      · split
        · split
          · rfl
          · split
            · rfl
            · rename_i hns hcomma hpseudo hdup
              rw [ih]
              apply tableGet_insert_ne
              by_contra hbeq
              simp only [Bool.not_eq_false] at hbeq
              have : trimChars (List.takeWhile (fun c => c != ',') line) = "ORG".data :=
                eq_of_beq hbeq
              rw [this] at hpseudo
              exact hpseudo (by decide)
        · exact ih ..

/-- The loader's diagnostics are exactly `loaderSpecMsgs`. -/
theorem load_loop_entries (listing : List (List Char)) :
    ∀ (c : CPU) (messages : Messages) (address : Nat),
      (CPU.load_loop c messages listing address).2.entries
        = messages.entries ++ loaderSpecMsgs listing address := by
  induction listing with
  | nil => intro c messages address; simp [CPU.load_loop, loaderSpecMsgs]
  | cons s rest ih =>
    intro c messages address
    simp only [CPU.load_loop, loaderSpecMsgs]
    cases h : from_str_radix_u16 s with
    | some v =>
      by_cases ha : address < MEMORY_LEN
      · simp [ha, ih, Messages.debug, List.append_assoc]
      · simp [ha, ih]
    | none =>
      simp [ih, Messages.error, List.append_assoc]

/-- Pointwise description of memory after the loader's loop. -/
theorem load_loop_mem (listing : List (List Char)) :
    ∀ (c : CPU) (messages : Messages) (address i : Nat),
      (CPU.load_loop c messages listing address).1.memory i
        = if address ≤ i ∧ i - address < listing.length ∧ i < MEMORY_LEN then
            (from_str_radix_u16 (listing.getD (i - address) [])).getD (c.memory i)
          else c.memory i := by
  induction listing with
  | nil =>
    intro c messages address i
    simp [CPU.load_loop]
  | cons s rest ih =>
    intro c messages address i
    have ih' := ih
    simp only [MEMORY_LEN] at ih'
    simp only [CPU.load_loop, MEMORY_LEN, List.length_cons]
    cases h : from_str_radix_u16 s with
    | some v =>
      dsimp only
      by_cases ha : address < 4096
      · rw [if_pos ha, ih']
        by_cases hi : i = address
        · subst hi
          rw [if_neg (by omega), if_pos (by omega)]
          simp [memStore, List.getD, h]
        · have hmem : memStore c.memory address v i = c.memory i := by
            simp [memStore, hi]
          by_cases hrange : address + 1 ≤ i ∧ i - (address + 1) < rest.length ∧ i < 4096
          · rw [if_pos hrange, if_pos (by omega)]
            have hidx : i - address = (i - (address + 1)) + 1 := by omega
            rw [hidx]
            simp [List.getD, hmem]
          · rw [if_neg hrange, if_neg (by omega)]
            exact hmem
      · rw [if_neg ha, ih']
        by_cases hr : address + 1 ≤ i ∧ i - (address + 1) < rest.length ∧ i < 4096
        · omega
        · rw [if_neg hr, if_neg (by omega)]
    | none =>
      dsimp only
      rw [ih']
      by_cases hi : i = address
      · subst hi
        rw [if_neg (by omega)]
        by_cases hin : i ≤ i ∧ i - i < rest.length + 1 ∧ i < 4096
        · rw [if_pos (by omega)]
          simp [List.getD, h]
        · rw [if_neg (by omega)]
      · by_cases hrange : address + 1 ≤ i ∧ i - (address + 1) < rest.length ∧ i < 4096
        · rw [if_pos hrange, if_pos (by omega)]
          have hidx : i - address = (i - (address + 1)) + 1 := by omega
          rw [hidx]
          simp [List.getD]
        · rw [if_neg hrange, if_neg (by omega)]

/-! ## Claim theorems -/

/-- C1: for the basic-addition source program, assembly succeeds with no
errors and produces the listing `2004, 1005, 3006, 7001, 0053, FFE9, 0000`
at offsets 0..6; after priming and ticking until `is_halted()` holds (21
micro-steps), `memory[6] = 0x003C`, `AC = 60`, `PC = 4` and `S = 0`. -/
theorem c1_basic_addition_end_to_end :
    (Machine.new.prime c1_program).2.has_errors = false ∧
    (Machine.new.prime c1_program).1.storage.assembled_program
      = strs ["2004", "1005", "3006", "7001", "0053", "FFE9", "0000"] ∧
    (let r := tickN (Machine.new.prime c1_program).1 Messages.new 21
     (r.1.is_halted, r.1.cpu.memory 6, r.1.cpu.reg.ac.get, r.1.cpu.reg.pc.get,
       r.1.cpu.reg.s.get))
      = (true, 0x003C, 60, 4, 0) :=
  ⟨by decide, by decide, by decide⟩

/-- C2 counterexample: `c2_program` makes the assembler report errors, yet
after `prime` the machine is NOT halted (`is_halted()` is `false`, because
`prime` runs the register reset unconditionally), contradicting the claim
that it stays in a halted state. -/
theorem c2_counterexample :
    (Machine.new.prime c2_program).2.has_errors = true ∧
    (Machine.new.prime c2_program).2.entries.contains
      (Level.Error, "Unknown instruction \"BADOP\"") = true ∧
    (Machine.new.prime c2_program).1.is_halted = false :=
  ⟨by decide, by decide, by decide⟩

/-- C3 counterexample: the first line `ORG FF` has a valid hexadecimal
operand with letter digits, yet pass one rejects it ("Invalid address for
ORG instruction", because the operand must first parse as decimal); likewise
`HEX 00AB` is rejected by pass two with "Invalid operand" and nothing is
emitted. -/
theorem c3_counterexample :
    (pass_one ⟨strs ["ORG FF", "END"], [], []⟩).2.entries
      = [(Level.Error, "Invalid address for ORG instruction")] ∧
    (pass_one ⟨strs ["ORG FF", "END"], [], []⟩).1.address_symbol_table = [] ∧
    (pass_two ⟨strs ["HEX 00AB"], [], [("ORG".data, 0)]⟩).2.has_errors = true ∧
    (pass_two ⟨strs ["HEX 00AB"], [], [("ORG".data, 0)]⟩).1.assembled_program = [] :=
  ⟨by decide, by decide, by decide, by decide⟩

/-- C4 counterexample: priming the indirect-addressing program yields
`memory[0] = 0xA002` (PTR resolves to address 2), not `0xA001` as claimed;
moreover `HEX 00AB` is rejected, so `memory[3] = 0` and the run ends with
`AC = 0`, not `0x00AB`. -/
theorem c4_counterexample :
    (Machine.new.prime c4_program).1.cpu.memory 0 = 0xA002 ∧
    (Machine.new.prime c4_program).2.has_errors = true ∧
    (let r := tickN (Machine.new.prime c4_program).1 Messages.new 10
     (r.1.is_halted, r.1.cpu.reg.ac.get)) = (true, 0) :=
  ⟨by decide, by decide, by decide⟩

/-- C4 amended: priming the indirect-addressing program yields
`memory[0] = 0xA002` (LDA, indirect bit set, address field 2 where PTR
lives), `memory[1] = 0x7001`, `memory[2] = 0x0003`, and `memory[3] = 0`
because the line `HEX 00AB` is rejected with an "Invalid operand" error
(HEX operands must also parse as decimal); running to halt leaves `AC = 0`. -/
theorem c4_amended_indirect_scenario :
    (Machine.new.prime c4_program).2.entries.contains
      (Level.Error, "Invalid operand \"00AB\" for instruction \"HEX\"") = true ∧
    (Machine.new.prime c4_program).1.storage.assembled_program
      = strs ["A002", "7001", "0003"] ∧
    (let r := tickN (Machine.new.prime c4_program).1 Messages.new 10
     (r.1.is_halted, r.1.cpu.memory 0, r.1.cpu.memory 1, r.1.cpu.memory 2,
       r.1.cpu.memory 3, r.1.cpu.reg.ac.get))
      = (true, 0xA002, 0x7001, 0x0003, 0, 0) :=
  ⟨by decide, by decide, by decide⟩

/-- C5 counterexample: loading a listing whose single entry is the empty
string emits an "Invalid instruction format" Error diagnostic (the empty
string fails the hex parse), contradicting the claim that empty entries
produce no diagnostic. -/
theorem c5_counterexample :
    (CPU.new.load_program_into_memory [[]]).2.entries
      = [(Level.Error, "Invalid instruction format: ")] :=
  by decide

/-- C6: after a successful `prime`, `PC = 0`, `S = 1`, `IR = 1` do hold,
but `is_primed()` returns `false` (hardcoded TODO stub), and `prime` never
clears SC (a machine primed mid-instruction keeps `SC = 5`), contradicting
the claimed `is_primed() = true` and `SC = 0`. -/
theorem c6_code_bug_is_primed_false :
    (let r := Machine.new.prime c6_program
     (r.2.has_errors, r.1.cpu.reg.pc.get, r.1.cpu.reg.s.get, r.1.cpu.reg.ir.get,
       r.1.is_primed, r.1.cpu.reg.sc.get))
      = (false, 0, 1, 1, false, 0) ∧
    (let r := m6pre.prime c6_program
     (r.2.has_errors, r.1.is_primed, r.1.cpu.reg.sc.get))
      = (false, false, 5) :=
  ⟨by decide, by decide⟩

/-- C7: ticking a halted machine (`S = 0`) appends exactly one Error entry
"Machine halted, please reset" and returns the machine unchanged — every
register and every memory word keeps its value. -/
theorem c7_tick_halted_noop (m : Machine) (messages : Messages)
    (h : m.is_halted = true) :
    m.tick messages = (m, messages.error ("Machine halted, please reset")) ∧
    (m.tick messages).2.entries
      = messages.entries ++ [(Level.Error, "Machine halted, please reset")] := by
  constructor
  · simp [Machine.tick, h]
  · simp [Machine.tick, h, Messages.error]

/-- Witness for C7 at a concrete halted machine: a fresh machine has `S = 0`. -/
theorem c7_tick_halted_noop_witness :
    Machine.new.is_halted = true ∧
    Machine.new.tick Messages.new
      = (Machine.new, Messages.new.error ("Machine halted, please reset")) :=
  ⟨by decide, (c7_tick_halted_noop Machine.new Messages.new (by decide)).1⟩

/-- C8 counterexample: in the running state `m8` (S = 1, SC = 4, R = 0,
opcode D = 7) a tick fires none of the eight alternatives: it is a silent
no-op — the machine is returned unchanged and no diagnostic is appended
(each of the eight alternatives either changes SC or appends an entry). -/
theorem c8_counterexample :
    m8.is_halted = false ∧
    m8.cpu.reg.sc.get = 4 ∧
    m8.cpu.reg.r.get = 0 ∧
    CPU.get_opcode m8.cpu = 7 ∧
    CPU.get_indirect_bit m8.cpu = 0 ∧
    m8.tick Messages.new = (m8, Messages.new) :=
  ⟨by decide, by decide, by decide, by decide, by decide, by rfl⟩

/-- C10: with `IR = 0x7000` (opcode 7, indirect bit 0, bits 0..11 all zero)
at SC = 3, the lowest-set-bit selection defaults to bit 0, so the tick
executes HLT: S is cleared, a "Halting" Error is emitted, and SC is reset. -/
theorem c10_rri_default_bit_hlt :
    CPU.get_instruction_bit c10cpu = 0 ∧
    (let r := c10cpu.tick Messages.new
     (r.1.reg.s.get, r.1.reg.sc.get,
       r.2.entries.contains (Level.Error, "Halting")))
      = (0, 0, true) :=
  ⟨by decide, by decide⟩

/-- C2 amended: when the assembler reports errors, `prime` still reports
them in the returned diagnostics and `is_primed()` is `false`, but the
machine is NOT left halted — the register reset runs unconditionally and
sets `S = 1`, so `is_halted()` returns `false`. -/
theorem c2_amended_not_halted (m : Machine) (program : List (List Char))
    (hm : m.cpu.reg.s.mask = 1)
    (_herr : (m.prime program).2.has_errors = true) :
    (m.prime program).1.is_halted = false ∧ (m.prime program).1.is_primed = false := by
  refine ⟨?_, rfl⟩
  rcases ha : assemble (Messages.new.info ("Program loaded successfully")) ⟨program, [], []⟩
    with ⟨ms, st⟩
  simp only [Machine.prime, Storage.load_program, ha, Machine.is_halted]
  rw [reset_s]
  simp [Register.get, Register.set, hm]

/-- Witness for C2 amended at the concrete erroring program. -/
theorem c2_amended_not_halted_witness :
    Machine.new.cpu.reg.s.mask = 1 ∧
    (Machine.new.prime c2_program).2.has_errors = true ∧
    ((Machine.new.prime c2_program).1.is_halted = false ∧
      (Machine.new.prime c2_program).1.is_primed = false) :=
  ⟨by decide, by decide,
    c2_amended_not_halted Machine.new c2_program (by decide) (by decide)⟩

/-- C3 amended: an `ORG`/`HEX` operand is accepted exactly when it also
parses as a *decimal* numeral, and the value taken is then its
*hexadecimal* reading: a decimally valid `ORG n` first line stores the hex
value `o` of `n` as the origin for any remaining lines and pass one
finishes the two-line program without error, while an operand failing the
decimal parse is rejected with "Invalid address for ORG instruction" and
no table entry; likewise a decimally valid `HEX n` line emits the
four-digit rendering of the hex value `w` of `n` with no error, while an
operand failing the decimal parse produces an error and emits nothing. -/
theorem c3_amended_decimal_gate :
    (∀ (line s : List Char) (d o : Nat) (rest : List (List Char)),
      containsSubstr ("ORG".data) line = true →
      parse_line_fast line = ⟨"ORG".data, some s, false⟩ →
      parseU32 s = some d →
      from_str_radix_u32 s = some o →
      tableGet ((pass_one ⟨line :: rest, [], []⟩).1.address_symbol_table) ("ORG".data)
        = some o) ∧
    (∀ (line s : List Char) (d : Nat),
      containsSubstr ("ORG".data) line = true →
      parse_line_fast line = ⟨"ORG".data, some s, false⟩ →
      parseU32 s = some d →
      line.any (fun c => c == ',') = false →
      (pass_one ⟨[line, "END".data], [], []⟩).2.has_errors = false) ∧
    (∀ (line s : List Char) (rest : List (List Char)),
      containsSubstr ("ORG".data) line = true →
      parse_line_fast line = ⟨"ORG".data, some s, false⟩ →
      parseU32 s = none →
      (pass_one ⟨line :: rest, [], []⟩).2.entries
          = [(Level.Error, "Invalid address for ORG instruction")] ∧
        (pass_one ⟨line :: rest, [], []⟩).1.address_symbol_table = []) ∧
    (∀ (line2 s2 : List Char) (ind : Bool) (v : Int) (w : Nat),
      parse_line_fast line2 = ⟨"HEX".data, some s2, ind⟩ →
      parseI32 s2 = some v →
      from_str_radix_u16 s2 = some w →
      (pass_two ⟨[line2], [], [("ORG".data, 0)]⟩).1.assembled_program = [toHexPad4 w] ∧
        (pass_two ⟨[line2], [], [("ORG".data, 0)]⟩).2.has_errors = false) ∧
    (∀ (line2 s2 : List Char) (ind : Bool),
      parse_line_fast line2 = ⟨"HEX".data, some s2, ind⟩ →
      parseI32 s2 = none →
      (pass_two ⟨[line2], [], [("ORG".data, 0)]⟩).2.has_errors = true ∧
        (pass_two ⟨[line2], [], [("ORG".data, 0)]⟩).1.assembled_program = []) := by
  have hOrgNE : ("ORG".data == "END".data) = false := by decide
  have hOrgEmpty : ("ORG".data).isEmpty = false := by decide
  have hEndParse : parse_line_fast ("END".data) = ⟨"END".data, none, false⟩ := by decide
  have hDE : (Level.Debug == Level.Error) = false := by decide
  have hEE : (Level.Error == Level.Error) = true := by decide
  have hIE : (Level.Info == Level.Error) = false := by decide
  have hHexEmpty : ("HEX".data).isEmpty = false := by decide
  have hPC : PSEUDO_INSTRUCTIONS.contains ("HEX".data) = true := by decide
  have hHO : ("HEX".data == "ORG".data) = false := by decide
  have hHE : ("HEX".data == "END".data) = false := by decide
  have hHD : ("HEX".data == "DEC".data) = false := by decide
  have hHH : ("HEX".data == "HEX".data) = true := by decide
  have hget0 : tableGet [("ORG".data, 0)] ("ORG".data) = some 0 := by decide
  have htg : ∀ w : Nat, tableGet (tableInsert [] ("ORG".data) w) ("ORG".data) = some w := by
    intro w
    simp [tableGet, tableInsert, List.find?]
  refine ⟨?_, ?_, ?_, ?_, ?_⟩
  · intro line s d o rest hA hB hC hH
    simp only [pass_one, List.isEmpty_cons, Bool.false_eq_true, if_false, List.headD,
      hA, if_true, hB, Option.isSome_some, ParsedInstruction.is_empty]
    rcases hp : p1_loop (line :: rest) (line :: rest) 0 ((from_str_radix_u32 s).getD 0)
        (tableInsert [] ("ORG".data) ((from_str_radix_u32 s).getD 0))
        (Messages.new.debug ("ORG is at address " ++ natToDec ((from_str_radix_u32 s).getD 0)))
      with ⟨tbl, msgs⟩
    have hpre := p1_loop_preserves_org (line :: rest) (line :: rest) 0
      ((from_str_radix_u32 s).getD 0)
      (tableInsert [] ("ORG".data) ((from_str_radix_u32 s).getD 0))
      (Messages.new.debug ("ORG is at address " ++ natToDec ((from_str_radix_u32 s).getD 0)))
    rw [hp] at hpre
    simp only at hpre
    simp only [beq_self_eq_true, if_true, hC, Option.isSome_some]
    rw [hpre, htg, hH]
    rfl
  · intro line s d hA hB hC hD
    have hloop : ∀ (program : List (List Char)) (origin : Nat)
        (table : List (List Char × Nat)) (messages : Messages),
        p1_loop program [line, "END".data] 0 origin table messages
          = (table,
              messages.debug
                ("Found END of symbolic program at program line " ++ natToDec 2)) := by
      intro program origin table messages
      simp only [p1_loop, hB, ParsedInstruction.is_empty, hOrgEmpty, Bool.false_eq_true,
        if_false, hOrgNE, hD, hEndParse]
      norm_num
    simp only [pass_one, List.isEmpty_cons, Bool.false_eq_true, if_false, List.headD,
      hA, if_true, hB, Option.isSome_some, ParsedInstruction.is_empty,
      beq_self_eq_true, hC, hloop]
    simp [Messages.has_errors, Messages.debug, Messages.new, hDE]
  · intro line s rest hA hB hC
    simp only [pass_one, List.isEmpty_cons, Bool.false_eq_true, if_false, List.headD,
      hA, if_true, hB, hC, Option.isSome_none, if_false]
    simp [Messages.error, Messages.new]
  · intro line2 s2 ind v w hE hF hG
    constructor
    · simp only [pass_two, hget0, Messages.error_count]
      simp only [p2_loop, hE, ParsedInstruction.is_empty, hHexEmpty, Bool.false_eq_true,
        if_false, hPC, if_true, hHO, hHE, hHD, hHH, Bool.false_or, hF, Option.isSome_some,
        growSet, hG]
      simp [List.replicate, Messages.debug, Messages.new, hDE, hG]
    · simp only [pass_two, hget0, Messages.error_count]
      simp only [p2_loop, hE, ParsedInstruction.is_empty, hHexEmpty, Bool.false_eq_true,
        if_false, hPC, if_true, hHO, hHE, hHD, hHH, Bool.false_or, hF, Option.isSome_some,
        growSet]
      simp [List.replicate, Messages.debug, Messages.new, Messages.has_errors, hDE]
  · intro line2 s2 ind hE hF
    constructor
    · simp only [pass_two, hget0, Messages.error_count]
      simp only [p2_loop, hE, ParsedInstruction.is_empty, hHexEmpty, Bool.false_eq_true,
        if_false, hPC, if_true, hHO, hHE, hHD, hHH, Bool.false_or, hF, Option.isSome_none]
      simp [Messages.error_count, Messages.has_errors, Messages.debug, Messages.error,
        Messages.info, Messages.new, hDE, hEE, hIE]
    · simp only [pass_two, hget0, Messages.error_count]
      simp only [p2_loop, hE, ParsedInstruction.is_empty, hHexEmpty, Bool.false_eq_true,
        if_false, hPC, if_true, hHO, hHE, hHD, hHH, Bool.false_or, hF, Option.isSome_none]

/-- Witness for C3 amended: `ORG 10` stores origin 16 and `HEX 0003` emits
`0003` with no error, while `ORG FF` and `HEX 00AB` — decimally invalid —
are rejected. -/
theorem c3_amended_decimal_gate_witness :
    containsSubstr ("ORG".data) ("ORG 10".data) = true ∧
    parse_line_fast ("ORG 10".data) = ⟨"ORG".data, some ("10".data), false⟩ ∧
    parseU32 ("10".data) = some 10 ∧
    from_str_radix_u32 ("10".data) = some 16 ∧
    ("ORG 10".data).any (fun c => c == ',') = false ∧
    parse_line_fast ("ORG FF".data) = ⟨"ORG".data, some ("FF".data), false⟩ ∧
    parseU32 ("FF".data) = none ∧
    parse_line_fast ("HEX 0003".data) = ⟨"HEX".data, some ("0003".data), false⟩ ∧
    parseI32 ("0003".data) = some 3 ∧
    from_str_radix_u16 ("0003".data) = some 3 ∧
    parse_line_fast ("HEX 00AB".data) = ⟨"HEX".data, some ("00AB".data), false⟩ ∧
    parseI32 ("00AB".data) = none ∧
    tableGet ((pass_one ⟨["ORG 10".data, "END".data], [], []⟩).1.address_symbol_table)
        ("ORG".data) = some 16 ∧
    (pass_one ⟨["ORG 10".data, "END".data], [], []⟩).2.has_errors = false ∧
    ((pass_one ⟨["ORG FF".data, "END".data], [], []⟩).2.entries
        = [(Level.Error, "Invalid address for ORG instruction")] ∧
      (pass_one ⟨["ORG FF".data, "END".data], [], []⟩).1.address_symbol_table = []) ∧
    ((pass_two ⟨["HEX 0003".data], [], [("ORG".data, 0)]⟩).1.assembled_program
        = [toHexPad4 3] ∧
      (pass_two ⟨["HEX 0003".data], [], [("ORG".data, 0)]⟩).2.has_errors = false) ∧
    ((pass_two ⟨["HEX 00AB".data], [], [("ORG".data, 0)]⟩).2.has_errors = true ∧
      (pass_two ⟨["HEX 00AB".data], [], [("ORG".data, 0)]⟩).1.assembled_program = []) :=
  ⟨by decide, by decide, by decide, by decide, by decide, by decide, by decide, by decide,
    by decide, by decide, by decide, by decide,
    (c3_amended_decimal_gate).1 ("ORG 10".data) ("10".data) 10 16 ["END".data]
      (by decide) (by decide) (by decide) (by decide),
    (c3_amended_decimal_gate).2.1 ("ORG 10".data) ("10".data) 10
      (by decide) (by decide) (by decide) (by decide),
    (c3_amended_decimal_gate).2.2.1 ("ORG FF".data) ("FF".data) ["END".data]
      (by decide) (by decide) (by decide),
    (c3_amended_decimal_gate).2.2.2.1 ("HEX 0003".data) ("0003".data) false 3 3
      (by decide) (by decide) (by decide),
    (c3_amended_decimal_gate).2.2.2.2 ("HEX 00AB".data) ("00AB".data) false
      (by decide) (by decide)⟩

/-- C5 amended: the loader writes each entry that parses as hexadecimal to
memory at its index when the index is below 4096 (with a Debug diagnostic);
entries that fail the hex parse — the empty string included — leave memory
unchanged and emit an "Invalid instruction format" Error; parseable entries
at an index at or beyond 4096 are skipped silently, with neither a write
nor a diagnostic.  The diagnostics stream is exactly `loaderSpecMsgs` and
memory is described pointwise. -/
theorem c5_amended_loader (c : CPU) (listing : List (List Char)) :
    (c.load_program_into_memory listing).2.entries = loaderSpecMsgs listing 0 ∧
    ∀ i : Nat,
      (c.load_program_into_memory listing).1.memory i
        = if i < listing.length ∧ i < MEMORY_LEN then
            (from_str_radix_u16 (listing.getD i [])).getD (c.memory i)
          else c.memory i := by
  constructor
  · rw [CPU.load_program_into_memory, load_loop_entries]
    rfl
  · intro i
    rw [CPU.load_program_into_memory, load_loop_mem]
    simp

/-- C8 amended: every tick performs exactly the action of the single
alternative selected by the dispatch tuple — `tickApply` of `tickAlt`,
whose guards are those of the source chain — so exactly one alternative
fires in every state; and under the 1-bit invariant `R ≤ 1` the selected
alternative is the do-nothing fall-through precisely in the states
S = 1, SC > 3, opcode = 7, where the tick changes nothing and emits no
diagnostic. -/
theorem c8_amended_fall_through (m : Machine) (messages : Messages)
    (hr : m.cpu.reg.r.get ≤ 1) :
    m.tick messages = tickApply (tickAlt m) m messages ∧
    (tickAlt m = TickAlt.fallThrough ↔
      m.is_halted = false ∧ 3 < m.cpu.reg.sc.get ∧ CPU.get_opcode m.cpu = 7) := by
  constructor
  · by_cases h0 : m.is_halted
    · simp [Machine.tick, tickAlt, tickApply, h0]
    · simp only [Machine.tick, tickAlt, CPU.tick, h0, Bool.false_eq_true, if_false]
      by_cases h1 : m.cpu.reg.sc.get < 3 ∧ m.cpu.reg.r.get = 1
      · simp only [if_pos h1, tickApply]
      · simp only [if_neg h1]
        by_cases h2 : m.cpu.reg.sc.get < 2 ∧ m.cpu.reg.r.get = 0
        · simp only [if_pos h2, tickApply]
        · simp only [if_neg h2]
          by_cases h3 : m.cpu.reg.sc.get = 2 ∧ m.cpu.reg.r.get = 0
          · simp only [if_pos h3, tickApply]
          · simp only [if_neg h3]
            by_cases h4 : m.cpu.reg.sc.get = 3 ∧ CPU.get_opcode m.cpu ≠ 7
            · simp only [if_pos h4, tickApply]
            · simp only [if_neg h4]
              by_cases h5 : 3 < m.cpu.reg.sc.get ∧ CPU.get_opcode m.cpu ≠ 7
              · simp only [if_pos h5, tickApply]
              · simp only [if_neg h5]
                by_cases h6 : m.cpu.reg.sc.get = 3 ∧ CPU.get_opcode m.cpu = 7
                · simp only [if_pos h6]
                  by_cases h7 : CPU.get_indirect_bit m.cpu = 1
                  · simp only [if_pos h7, tickApply]
                  · simp only [if_neg h7, tickApply]
                · simp only [if_neg h6, tickApply]
  · by_cases h0 : m.is_halted
    · simp [tickAlt, h0]
    · have h0f : m.is_halted = false := by
        simpa using h0
      simp only [tickAlt, h0, Bool.false_eq_true, if_false]
      by_cases h1 : m.cpu.reg.sc.get < 3 ∧ m.cpu.reg.r.get = 1
      · simp only [if_pos h1]
        simp [h0f]
        all_goals omega
      · simp only [if_neg h1]
        by_cases h2 : m.cpu.reg.sc.get < 2 ∧ m.cpu.reg.r.get = 0
        · simp only [if_pos h2]
          simp [h0f]
          all_goals omega
        · simp only [if_neg h2]
          by_cases h3 : m.cpu.reg.sc.get = 2 ∧ m.cpu.reg.r.get = 0
          · simp only [if_pos h3]
            simp [h0f]
            all_goals omega
          · simp only [if_neg h3]
            by_cases h4 : m.cpu.reg.sc.get = 3 ∧ CPU.get_opcode m.cpu ≠ 7
            · simp only [if_pos h4]
              simp [h0f]
              all_goals omega
            · simp only [if_neg h4]
              by_cases h5 : 3 < m.cpu.reg.sc.get ∧ CPU.get_opcode m.cpu ≠ 7
              · simp only [if_pos h5]
                simp [h0f]
                all_goals omega
              · simp only [if_neg h5]
                by_cases h6 : m.cpu.reg.sc.get = 3 ∧ CPU.get_opcode m.cpu = 7
                · simp only [if_pos h6]
                  by_cases h7 : CPU.get_indirect_bit m.cpu = 1
                  · simp only [if_pos h7]
                    simp [h0f]
                    all_goals omega
                  · simp only [if_neg h7]
                    simp [h0f]
                    all_goals omega
                · simp only [if_neg h6]
                  simp only [h0f, true_and]
                  constructor
                  · intro _
                    omega
                  · intro _
                    trivial

/-- Witness for C8 amended at the concrete fall-through state `m8`. -/
theorem c8_amended_fall_through_witness :
    m8.cpu.reg.r.get ≤ 1 ∧
    m8.tick Messages.new = tickApply (tickAlt m8) m8 Messages.new ∧
    (tickAlt m8 = TickAlt.fallThrough ↔
      m8.is_halted = false ∧ 3 < m8.cpu.reg.sc.get ∧ CPU.get_opcode m8.cpu = 7) :=
  ⟨by decide, (c8_amended_fall_through m8 Messages.new (by decide)).1,
    (c8_amended_fall_through m8 Messages.new (by decide)).2⟩

/-- C9: for every 16-bit value of AC and every 1-bit value of E, executing
CIR and then CIL restores both AC and E — the composition of the two
circulate operations is the identity on the pair (AC, E). -/
theorem c9_cir_cil_identity (c : CPU) (msgs1 msgs2 : Messages) (a e : Nat)
    (ha : a < 65536) (he : e < 2)
    (hac : c.reg.ac = ⟨a, 65535⟩) (hee : c.reg.e = ⟨e, 1⟩) :
    ((c.cir msgs1).1.cil msgs2).1.reg.ac = c.reg.ac ∧
    ((c.cir msgs1).1.cil msgs2).1.reg.e = c.reg.e := by
  have hb : a % 2 &&& 1 = a % 2 := by rw [Nat.and_one_is_mod]; omega
  rcases (by omega : e = 0 ∨ e = 1) with rfl | rfl
  · have hsr : Register.shift_right ⟨a, 65535⟩ 0 = (⟨a / 2, 65535⟩, a % 2) := by
      rw [shift_right_16 a 0 ha, if_neg (by omega)]
    have hsl : Register.shift_left ⟨a / 2, 65535⟩ (a % 2) = (⟨a, 65535⟩, 0) := by
      rw [shift_left_16 _ _ (by omega), and_high_zero (a / 2) (by omega),
        if_neg (by omega)]
      have hv : 2 * (a / 2 % 32768) + a % 2 = a := by omega
      rw [hv]
    simp only [CPU.cir, CPU.cil, hac, hee, Register.get, hsr, Register.set, hb, hsl]
    constructor
    · trivial
    · simp
  · have hsr : Register.shift_right ⟨a, 65535⟩ 1 = (⟨a / 2 + 32768, 65535⟩, a % 2) := by
      rw [shift_right_16 a 1 ha, if_pos (by omega)]
    have hsl : Register.shift_left ⟨a / 2 + 32768, 65535⟩ (a % 2) = (⟨a, 65535⟩, 1) := by
      rw [shift_left_16 _ _ (by omega), and_high_sum (a / 2) (by omega),
        if_pos (by omega)]
      have hv : 2 * ((a / 2 + 32768) % 32768) + a % 2 = a := by omega
      rw [hv]
    simp only [CPU.cir, CPU.cil, hac, hee, Register.get, hsr, Register.set, hb, hsl]
    constructor
    · trivial
    · simp

/-- Witness for C9 at `AC = 0xABCD`, `E = 1`. -/
theorem c9_cir_cil_identity_witness :
    c9cpu.reg.ac = ⟨0xABCD, 65535⟩ ∧ c9cpu.reg.e = ⟨1, 1⟩ ∧
    ((c9cpu.cir Messages.new).1.cil Messages.new).1.reg.ac = c9cpu.reg.ac ∧
    ((c9cpu.cir Messages.new).1.cil Messages.new).1.reg.e = c9cpu.reg.e :=
  ⟨rfl, rfl,
    (c9_cir_cil_identity c9cpu Messages.new Messages.new 0xABCD 1 (by decide) (by decide)
      rfl rfl).1,
    (c9_cir_cil_identity c9cpu Messages.new Messages.new 0xABCD 1 (by decide) (by decide)
      rfl rfl).2⟩

end Mano
